import Mathlib

/-!
Shallow embedding of the two chord-processing utilities of the
`midi_processors` repository.

`src/chord-sets-processor.py` (class `ChordSetsProcessor`) scans MIDI files,
detects chords by maintaining a set of currently sounding pitches, estimates
tempo and key, categorizes each file, and builds a catalog that a query
operation can later filter.

`src/chord-processor.py` (class `ChordProcessor`) ingests a zip of chord
files, dispatches each file by extension, scans text files for chord-symbol
tokens, and aggregates a progression list plus a format tally.

MIDI byte-level parsing (mido), music21 chordification, zip extraction and
JSON (de)serialization are external collaborators; they are modelled by the
already-parsed values they deliver (message lists, abstract per-file records,
`Except`/`Option` outcomes for the exception paths).
-/

namespace MidiProcessors

/-- The kinds of mido track messages that `analyze_chord_midi` inspects.
`set_tempo` carries the raw MIDI tempo in microseconds per beat (field
`msg.tempo`); everything the source ignores is collapsed into `other`. -/
inductive MsgType where
  | note_on (note : ℕ) (velocity : ℕ)
  | note_off (note : ℕ) (velocity : ℕ)
  | set_tempo (tempo : ℕ)
  | key_signature (key : String)
  | other
  deriving DecidableEq

/-- One mido track message: a delta time in ticks plus its payload. -/
structure Msg where
  time : ℕ
  type : MsgType
  deriving DecidableEq

/-- A chord event appended to `analysis["chord_progression"]`. -/
structure ChordEvent where
  time : ℕ
  notes : List ℕ
  track : ℕ
  deriving DecidableEq

/-- An entry of `analysis["tempo_changes"]`. -/
structure TempoChange where
  time : ℕ
  bpm : ℚ
  deriving DecidableEq

/-- An entry of `analysis["key_signatures"]`. -/
structure KeyEntry where
  time : ℕ
  key : String
  deriving DecidableEq

/-- The mutable part of the analysis dict that the track loop fills in:
the three ordered event lists.  The scalar header fields copied straight
from mido (`filename`, `length`, `ticks_per_beat`, `num_tracks`) and the
never-written `note_events` list are omitted; they are external pass-through
data that no operation of the program reads back. -/
structure Analysis where
  chord_progression : List ChordEvent
  key_signatures : List KeyEntry
  tempo_changes : List TempoChange
  deriving DecidableEq

/-- Per-track loop state of `analyze_chord_midi`: the running absolute time,
the set of currently active notes, and the shared analysis record. -/
structure TrackState where
  current_time : ℕ
  active_notes : Finset ℕ
  analysis : Analysis

/-- mido's `tempo2bpm`: 60 000 000 microseconds per minute divided by the
microseconds-per-beat value (rational arithmetic stands in for the float). -/
def tempo2bpm (tempo : ℕ) : ℚ := 60000000 / (tempo : ℚ)

/-- Python's `round(x, 2)` (modelled with mathematical rounding on ℚ;
the float half-to-even corner cases play no role in any claim). -/
def round2 (x : ℚ) : ℚ := ((round (x * 100) : ℤ) : ℚ) / 100

/-- One iteration of the `for msg in track` loop of `analyze_chord_midi`
(src/chord-sets-processor.py lines 42-71): accumulate the delta time, then
dispatch on the message type exactly as the if/elif chain does. -/
def trackStep (track_idx : ℕ) (s : TrackState) (msg : Msg) : TrackState :=
  let current_time := s.current_time + msg.time
  match msg.type with
  | MsgType.note_on note velocity =>
      if 0 < velocity then
        let active := insert note s.active_notes
        if 3 ≤ active.card then
          { current_time := current_time
            active_notes := active
            analysis :=
              { s.analysis with
                chord_progression := s.analysis.chord_progression ++
                  [{ time := current_time
                     notes := active.sort (· ≤ ·)
                     track := track_idx }] } }
        else
          { current_time := current_time, active_notes := active, analysis := s.analysis }
      else
        { current_time := current_time
          active_notes := s.active_notes.erase note
          analysis := s.analysis }
  | MsgType.note_off note _ =>
      { current_time := current_time
        active_notes := s.active_notes.erase note
        analysis := s.analysis }
  | MsgType.set_tempo tempo =>
      { current_time := current_time
        active_notes := s.active_notes
        analysis :=
          { s.analysis with
            tempo_changes := s.analysis.tempo_changes ++
              [{ time := current_time, bpm := round2 (tempo2bpm tempo) }] } }
  | MsgType.key_signature k =>
      { current_time := current_time
        active_notes := s.active_notes
        analysis :=
          { s.analysis with
            key_signatures := s.analysis.key_signatures ++
              [{ time := current_time, key := k }] } }
  | MsgType.other =>
      { current_time := current_time
        active_notes := s.active_notes
        analysis := s.analysis }

/-- Run one track's message loop: `current_time = 0` and `active_notes = set()`
are reset for the track while the analysis record carries over. -/
def runTrack (track_idx : ℕ) (a : Analysis) (msgs : List Msg) : TrackState :=
  List.foldl (trackStep track_idx) ⟨0, ∅, a⟩ msgs

/-- The analysis record after one track has been processed. -/
def processTrack (track_idx : ℕ) (a : Analysis) (msgs : List Msg) : Analysis :=
  (runTrack track_idx a msgs).analysis

/-- The `for track_idx, track in enumerate(mid.tracks)` loop, with the
running index made explicit. -/
def analyzeTracksFrom (track_idx : ℕ) (a : Analysis) : List (List Msg) → Analysis
  | [] => a
  | t :: ts => analyzeTracksFrom (track_idx + 1) (processTrack track_idx a t) ts

/-- `estimate_tempo` (lines 87-91): bpm of the first tempo change, else 120. -/
def estimate_tempo (analysis : Analysis) : ℚ :=
  match analysis.tempo_changes with
  | tc :: _ => tc.bpm
  | [] => 120

/-- `estimate_key` (lines 93-97): key of the first key signature, else "C". -/
def estimate_key (analysis : Analysis) : String :=
  match analysis.key_signatures with
  | ks :: _ => ks.key
  | [] => "C"

/-- The completed analysis record returned by `analyze_chord_midi` on the
success path: the collected lists plus the derived estimate fields. -/
structure FullAnalysis where
  chord_progression : List ChordEvent
  key_signatures : List KeyEntry
  tempo_changes : List TempoChange
  estimated_tempo : ℚ
  estimated_key : String
  chord_count : ℕ
  deriving DecidableEq

/-- `analyze_chord_midi` (lines 21-78) on a successfully parsed file, taking
the mido-parsed track list as input: run the track loop over every track,
then fill in `estimated_tempo`, `estimated_key` and `chord_count`. -/
def analyze_chord_midi (tracks : List (List Msg)) : FullAnalysis :=
  let a := analyzeTracksFrom 0 ⟨[], [], []⟩ tracks
  { chord_progression := a.chord_progression
    key_signatures := a.key_signatures
    tempo_changes := a.tempo_changes
    estimated_tempo := estimate_tempo a
    estimated_key := estimate_key a
    chord_count := a.chord_progression.length }

/-- `categorize_chord_set` (lines 99-118): tempo bucket and chord-count
bucket joined by a slash. -/
def categorize_chord_set (analysis : FullAnalysis) : String :=
  let chord_count := analysis.chord_count
  let tempo := analysis.estimated_tempo
  let category :=
    if tempo < 80 then "slow-progressions"
    else if tempo > 140 then "fast-progressions"
    else "medium-progressions"
  let subcategory :=
    if chord_count > 8 then "complex"
    else if chord_count > 4 then "standard"
    else "simple"
  category ++ "/" ++ subcategory

/-- An analysis record carrying just the two fields `categorize_chord_set`
reads (used to state its purity in those fields). -/
def mkAnalysis (tempo : ℚ) (chord_count : ℕ) : FullAnalysis :=
  { chord_progression := []
    key_signatures := []
    tempo_changes := []
    estimated_tempo := tempo
    estimated_key := "C"
    chord_count := chord_count }

/-- One entry of `catalog["chord_sets"]` (lines 169-174). -/
structure ChordSetInfo where
  original_path : String
  storage_path : String
  category : String
  analysis : FullAnalysis
  deriving DecidableEq

/-- The catalog built by `process_chord_sets` (lines 145-150).  The
`processed_at` field (an environment-dependent absolute path string) is
omitted; no operation reads it back. -/
structure Catalog where
  total_files : ℕ
  chord_sets : List ChordSetInfo
  categories : List (String × List ChordSetInfo)
  deriving DecidableEq

/-- The root of the chord-sets storage tree (`self.chord_sets_dir`). -/
def chord_sets_dir : String := "./storage/midi/templates/chord-sets"

/-- One discovered MIDI file: either mido parsed it (giving its track list)
or `analyze_chord_midi` hit the exception path and produced an error record. -/
inductive MidiFileInput where
  | parsed (name : String) (tracks : List (List Msg))
  | failed (name : String) (error : String)

/-- `dict[category]` update of lines 179-181: create the list on first use,
then append (insertion order preserved, as in a Python dict). -/
def updateCategories (cats : List (String × List ChordSetInfo)) (category : String)
    (info : ChordSetInfo) : List (String × List ChordSetInfo) :=
  if cats.any (fun kv => kv.1 = category) then
    cats.map (fun kv => if kv.1 = category then (kv.1, kv.2 ++ [info]) else kv)
  else
    cats ++ [(category, [info])]

/-- The body of the `for midi_file in midi_files` loop of
`process_chord_sets` (lines 154-185): files whose analysis errored are
skipped; the rest are categorized and appended to the catalog.  The
`shutil.copy2` file copy and console prints are I/O with no bearing on the
catalog value. -/
def processFileStep (catalog : Catalog) (file : MidiFileInput) : Catalog :=
  match file with
  | MidiFileInput.failed _ _ => catalog
  | MidiFileInput.parsed name tracks =>
      let analysis := analyze_chord_midi tracks
      let category := categorize_chord_set analysis
      let info : ChordSetInfo :=
        { original_path := name
          storage_path := chord_sets_dir ++ "/" ++ category ++ "/" ++ name
          category := category
          analysis := analysis }
      { catalog with
        chord_sets := catalog.chord_sets ++ [info]
        categories := updateCategories catalog.categories category info }

/-- `process_chord_sets` (lines 120-195), modelled on the catalog it builds,
persists and returns: directory creation and the JSON dump are I/O. -/
def process_chord_sets (files : List MidiFileInput) : Catalog :=
  List.foldl processFileStep
    { total_files := files.length, chord_sets := [], categories := [] } files

/-- `get_chord_sets_by_category` (lines 197-219).  `stored` is the catalog
read back from `chord_sets_catalog.json`, `none` when the file does not
exist.  Python truthiness of the optional arguments is kept: an empty
category string is falsy and disables the substring filter. -/
def get_chord_sets_by_category (stored : Option Catalog) (category : Option String)
    (tempo_range : Option (ℚ × ℚ)) : List ChordSetInfo :=
  match stored with
  | none => []
  | some catalog =>
      let chord_sets := catalog.chord_sets
      let chord_sets :=
        match category with
        | some c =>
            if c = "" then chord_sets
            else chord_sets.filter (fun cs => decide (c.data <:+: cs.category.data))
        | none => chord_sets
      match tempo_range with
      | some (min_tempo, max_tempo) =>
          chord_sets.filter (fun cs =>
            decide (min_tempo ≤ cs.analysis.estimated_tempo ∧
              cs.analysis.estimated_tempo ≤ max_tempo))
      | none => chord_sets

/-! The ingestor, `src/chord-processor.py`. -/

/-- `chord_roots` of `_is_chord_symbol` (line 178). -/
def chord_roots : List Char := ['C', 'D', 'E', 'F', 'G', 'A', 'B']

/-- `_is_chord_symbol` (lines 175-192) over the token's character list: an
empty token is rejected; a token whose first character is a natural note
letter is accepted; otherwise a token of length at least 2 starting with a
flat/sharp mark followed by a natural note letter is accepted.  (The
`modifiers` list of line 179 is declared but never consulted.) -/
def is_chord_symbol (text : List Char) : Bool :=
  match text with
  | [] => false
  | c0 :: rest =>
      if chord_roots.contains c0 then true
      else
        match rest with
        | c1 :: _ =>
            if (c0 = 'b' || c0 = '#') && chord_roots.contains c1 then true else false
        | [] => false

/-- Python whitespace for `str.split()` / `str.strip()`. -/
def isPySpace (c : Char) : Bool :=
  c = ' ' || c = '\t' || c = '\n' || c = '\r' || c = '\x0b' || c = '\x0c'

/-- Helper for `splitWords`: accumulate the current word (reversed). -/
def splitWordsAux : List Char → List Char → List (List Char)
  | [], acc => if acc = [] then [] else [acc.reverse]
  | c :: rest, acc =>
      if isPySpace c then
        (if acc = [] then [] else [acc.reverse]) ++ splitWordsAux rest []
      else
        splitWordsAux rest (c :: acc)

/-- Python `line.strip().split()`: split on whitespace runs, dropping empty
pieces (the leading `strip()` is absorbed by no-argument `split()`). -/
def splitWords (line : List Char) : List (List Char) := splitWordsAux line []

/-- Helper for `splitLines`: accumulate the current line (reversed). -/
def splitLinesAux : List Char → List Char → List (List Char)
  | [], acc => [acc.reverse]
  | c :: rest, acc =>
      if c = '\n' then acc.reverse :: splitLinesAux rest []
      else splitLinesAux rest (c :: acc)

/-- Python `content.split('\n')`: empty pieces are kept. -/
def splitLines (content : List Char) : List (List Char) := splitLinesAux content []

/-- The `chord_patterns` accumulation of `_process_text_chords`
(lines 132-146): per line, the tokens accepted by `_is_chord_symbol`;
lines with no accepted token contribute nothing. -/
def chordPatterns (content : List Char) : List (List (List Char)) :=
  (splitLines content).filterMap (fun line =>
    let potential_chords := (splitWords line).filter is_chord_symbol
    if potential_chords = [] then none else some potential_chords)

/-- The record returned by `_process_text_chords` (lines 148-153). -/
structure TextRecord where
  filename : String
  chord_progressions : List (List (List Char))
  raw_content : List Char
  deriving DecidableEq

/-- The record returned by `_process_midi_chords` (lines 113-119).  Its
chord symbols come from music21's chordify, an external collaborator, so the
record is carried abstractly. -/
structure MidiRecord where
  filename : String
  chord_progression : List String
  tempo : ℤ
  time_signature : String
  deriving DecidableEq

/-- The record returned by `_process_json_chords` (lines 165-169); the parsed
JSON payload is carried as its raw text. -/
structure JsonRecord where
  filename : String
  data : String
  deriving DecidableEq

/-- `_process_text_chords` (lines 125-157): `none` models the exception path
(the file could not be read); on a successful read the record is always
built, even when no line yields chords. -/
def process_text_chords (filename : String) (content : Option (List Char)) :
    Option TextRecord :=
  match content with
  | none => none
  | some c =>
      some { filename := filename
             chord_progressions := chordPatterns c
             raw_content := c.take 500 }

/-- One element of the heterogeneous `progressions` list built by
`_analyze_chord_files`. -/
inductive ProgRecord where
  | midi (r : MidiRecord)
  | text (r : TextRecord)
  | jsonRec (r : JsonRecord)
  deriving DecidableEq

/-- The `metadata` dict of `_analyze_chord_files` (line 57). -/
structure Metadata where
  file_count : ℕ
  formats : List String
  deriving DecidableEq

/-- The dict returned by `_analyze_chord_files` (lines 82-85). -/
structure ChordData where
  progressions : List ProgRecord
  metadata : Metadata
  deriving DecidableEq

/-- One regular file found by `rglob` in the extraction directory, classified
by suffix.  MIDI and JSON processing delegate to external libraries, so those
branches carry the per-file result directly (`none` = that processor's
exception path returned `None`); text files carry their content
(`none` = the read raised). -/
inductive FileEntry where
  | midiFile (name : String) (result : Option MidiRecord)
  | textFile (name : String) (content : Option (List Char))
  | jsonFile (name : String) (result : Option JsonRecord)
  | otherFile (name : String)

/-- The body of the file loop of `_analyze_chord_files` (lines 59-80): count
every regular file, then dispatch by suffix; a truthy (non-`None`) record is
appended together with its format tag.  (A returned record dict is always
non-empty, hence truthy, so `if prog_data:` is a `None` test.) -/
def analyzeFileStep (st : ChordData) (f : FileEntry) : ChordData :=
  let st := { st with metadata := { st.metadata with file_count := st.metadata.file_count + 1 } }
  match f with
  | FileEntry.midiFile _ result =>
      match result with
      | some r =>
          { st with
            progressions := st.progressions ++ [ProgRecord.midi r]
            metadata := { st.metadata with formats := st.metadata.formats ++ ["MIDI"] } }
      | none => st
  | FileEntry.textFile name content =>
      match process_text_chords name content with
      | some r =>
          { st with
            progressions := st.progressions ++ [ProgRecord.text r]
            metadata := { st.metadata with formats := st.metadata.formats ++ ["Text"] } }
      | none => st
  | FileEntry.jsonFile _ result =>
      match result with
      | some r =>
          { st with
            progressions := st.progressions ++ [ProgRecord.jsonRec r]
            metadata := { st.metadata with formats := st.metadata.formats ++ ["JSON"] } }
      | none => st
  | FileEntry.otherFile _ => st

/-- `_analyze_chord_files` (lines 54-85) over the classified file list. -/
def analyze_chord_files (files : List FileEntry) : ChordData :=
  List.foldl analyzeFileStep { progressions := [], metadata := { file_count := 0, formats := [] } } files

/-- The storage directory of the ingestor (`self.chord_sets_dir`, line 19). -/
def ingest_dir : String := "./storage/midi/chord-sets"

/-- `Path(p).stem` of the Python standard library: final path component
without its last extension (modelled for ordinary `name.ext` paths; the
hidden-file corner of pathlib is irrelevant to every claim). -/
def stem (path : String) : String :=
  let name := (path.splitOn "/").getLastD path
  let parts := name.splitOn "."
  match parts with
  | [] => name
  | [_] => name
  | _ => String.intercalate "." parts.dropLast

/-- The value returned by `process_chord_zip`. -/
inductive ProcessResult where
  | success (chord_set_name : String) (output_path : String) (chord_count : ℕ)
      (metadata : Metadata)
  | failure (error : String)
  deriving DecidableEq

/-- `process_chord_zip` (lines 22-52): the whole body — opening the archive,
extracting, analyzing, writing the JSON artifact — sits in one `try`; `run`
is that body's outcome (`Except.error` = any exception raised inside).  On
success the result packages the archive stem, output path, progression count
and metadata; on failure the structured error object. -/
def process_chord_zip (zip_path : String) (run : Except String ChordData) :
    ProcessResult :=
  match run with
  | Except.error e => ProcessResult.failure e
  | Except.ok chord_data =>
      ProcessResult.success (stem zip_path)
        (ingest_dir ++ "/" ++ stem zip_path ++ "_processed.json")
        chord_data.progressions.length chord_data.metadata

/-- Whether a message touches pitch `p`, and whether it turns it on
(`some true`), turns it off (`some false`), or leaves it alone (`none`). -/
def touches (p : ℕ) (msg : Msg) : Option Bool :=
  match msg.type with
  | MsgType.note_on note velocity => if note = p then some (decide (0 < velocity)) else none
  | MsgType.note_off note _ => if note = p then some false else none
  | _ => none

/-- The well-formedness property of an emitted chord event: notes strictly
ascending, duplicate-free, and at least three of them. -/
def GoodChord (e : ChordEvent) : Prop :=
  List.Sorted (· < ·) e.notes ∧ e.notes.Nodup ∧ 3 ≤ e.notes.length

/-- The single chord event produced by three simultaneous note-ons on
pitches 60, 64, 67 (witness data for C5). -/
def sampleChord : ChordEvent :=
  ⟨0, (insert 67 (insert 64 (insert 60 (∅ : Finset ℕ)))).sort (· ≤ ·), 0⟩

/-- The three-note-on sample track (witness data for C5). -/
def sampleTracks : List (List Msg) :=
  [[⟨0, MsgType.note_on 60 90⟩, ⟨0, MsgType.note_on 64 90⟩, ⟨0, MsgType.note_on 67 90⟩]]

/-! Helper lemmas. -/

/-- How one loop iteration changes the chord progression: nothing is
appended except on a positive-velocity note-on whose insertion brings the
active set to three or more pitches, in which case exactly the sorted
active set is appended. -/
theorem trackStep_progression (track_idx : ℕ) (s : TrackState) (msg : Msg) :
    (trackStep track_idx s msg).analysis.chord_progression
      = s.analysis.chord_progression ++
        (match msg.type with
         | MsgType.note_on note velocity =>
             if 0 < velocity ∧ 3 ≤ (insert note s.active_notes).card then
               [{ time := s.current_time + msg.time
                  notes := (insert note s.active_notes).sort (· ≤ ·)
                  track := track_idx }]
             else []
         | _ => []) := by
  rcases msg with ⟨t, ty⟩
  cases ty with
  | note_on note velocity =>
      by_cases hv : 0 < velocity
      · by_cases hc : 3 ≤ (insert note s.active_notes).card
        · simp [trackStep, hv, hc]
        · simp [trackStep, hv, hc]
      · simp [trackStep, hv]
  | note_off note velocity => simp [trackStep]
  | set_tempo tempo => simp [trackStep]
  | key_signature k => simp [trackStep]
  | other => simp [trackStep]

/-- How one loop iteration changes the active-note set: positive-velocity
note-on inserts, note-off or zero-velocity note-on erases, everything else
leaves it alone. -/
theorem trackStep_active (track_idx : ℕ) (s : TrackState) (msg : Msg) :
    (trackStep track_idx s msg).active_notes
      = (match msg.type with
         | MsgType.note_on note velocity =>
             if 0 < velocity then insert note s.active_notes
             else s.active_notes.erase note
         | MsgType.note_off note _ => s.active_notes.erase note
         | _ => s.active_notes) := by
  rcases msg with ⟨t, ty⟩
  cases ty with
  | note_on note velocity =>
      by_cases hv : 0 < velocity
      · by_cases hc : 3 ≤ (insert note s.active_notes).card
        · simp [trackStep, hv, hc]
        · simp [trackStep, hv, hc]
      · simp [trackStep, hv]
  | note_off note velocity => simp [trackStep]
  | set_tempo tempo => simp [trackStep]
  | key_signature k => simp [trackStep]
  | other => simp [trackStep]

/-- Pointwise form of `trackStep_active` in terms of `touches`. -/
theorem mem_trackStep_active (track_idx : ℕ) (s : TrackState) (msg : Msg) (p : ℕ) :
    p ∈ (trackStep track_idx s msg).active_notes ↔
      (match touches p msg with
       | some b => b = true
       | none => p ∈ s.active_notes) := by
  rw [trackStep_active]
  rcases msg with ⟨t, ty⟩
  cases ty with
  | note_on note velocity =>
      by_cases hn : note = p
      · subst hn
        by_cases hv : 0 < velocity
        · simp [touches, hv]
        · simp [touches, hv, Finset.mem_erase]
      · by_cases hv : 0 < velocity
        · simp [touches, hn, hv, Finset.mem_insert, Ne.symm hn]
        · simp [touches, hn, hv, Finset.mem_erase, Ne.symm hn]
  | note_off note velocity =>
      by_cases hn : note = p
      · subst hn; simp [touches, Finset.mem_erase]
      · simp [touches, hn, Finset.mem_erase, Ne.symm hn]
  | set_tempo tempo => simp [touches]
  | key_signature k => simp [touches]
  | other => simp [touches]

/-- Membership in the active set after folding a message list, characterized
by the last message touching the pitch. -/
theorem mem_active_after_foldl (track_idx : ℕ) (msgs : List Msg) (s : TrackState) (p : ℕ) :
    p ∈ (List.foldl (trackStep track_idx) s msgs).active_notes ↔
      (match (msgs.filterMap (touches p)).getLast? with
       | some b => b = true
       | none => p ∈ s.active_notes) := by
  induction msgs using List.reverseRecOn with
  | nil => simp
  | append_singleton ms m ih =>
      rw [List.foldl_append, List.foldl_cons, List.foldl_nil, mem_trackStep_active,
        List.filterMap_append]
      cases hm : touches p m with
      | none => simpa [hm] using ih
      | some b => simp [hm, List.getLast?_concat]

/-- Each loop iteration only appends well-formed chord events. -/
theorem trackStep_goodChord (track_idx : ℕ) (s : TrackState) (msg : Msg)
    (e : ChordEvent) (he : e ∈ (trackStep track_idx s msg).analysis.chord_progression) :
    e ∈ s.analysis.chord_progression ∨ GoodChord e := by
  rw [trackStep_progression] at he
  rcases List.mem_append.1 he with h1 | h2
  · exact Or.inl h1
  · right
    rcases msg with ⟨t, ty⟩
    cases ty with
    | note_on note velocity =>
        simp only at h2
        split at h2
        · rcases List.mem_singleton.1 h2 with rfl
          refine ⟨Finset.sort_sorted_lt _, (Finset.sort_nodup _ _), ?_⟩
          rw [Finset.length_sort]
          next h => exact h.2
        · simp at h2
    | note_off note velocity => simp at h2
    | set_tempo tempo => simp at h2
    | key_signature k => simp at h2
    | other => simp at h2

/-- Folding a track's messages preserves chord-event well-formedness. -/
theorem foldl_goodChord (track_idx : ℕ) (msgs : List Msg) :
    ∀ s : TrackState, (∀ e ∈ s.analysis.chord_progression, GoodChord e) →
      ∀ e ∈ (List.foldl (trackStep track_idx) s msgs).analysis.chord_progression, GoodChord e := by
  induction msgs with
  | nil => intro s h; exact h
  | cons m rest ih =>
      intro s h
      rw [List.foldl_cons]
      refine ih _ ?_
      intro e he
      rcases trackStep_goodChord track_idx s m e he with h1 | h2
      · exact h e h1
      · exact h2

/-- The whole track loop preserves chord-event well-formedness. -/
theorem analyzeTracksFrom_goodChord (tracks : List (List Msg)) :
    ∀ (track_idx : ℕ) (a : Analysis), (∀ e ∈ a.chord_progression, GoodChord e) →
      ∀ e ∈ (analyzeTracksFrom track_idx a tracks).chord_progression, GoodChord e := by
  induction tracks with
  | nil => intro i a h; simpa [analyzeTracksFrom] using h
  | cons t ts ih =>
      intro i a h
      rw [analyzeTracksFrom]
      exact ih _ _ (foldl_goodChord i t _ h)

/-- Unfolding of `is_chord_symbol` on a non-empty token into the acceptance
condition of the source heuristic. -/
theorem is_chord_symbol_cons (c0 : Char) (rest : List Char) :
    is_chord_symbol (c0 :: rest) = true ↔
      (c0 ∈ chord_roots ∨
        ∃ c1 rest2, rest = c1 :: rest2 ∧ (c0 = 'b' ∨ c0 = '#') ∧ c1 ∈ chord_roots) := by
  by_cases h : c0 ∈ chord_roots
  · have hc : chord_roots.contains c0 = true := List.elem_iff.2 h
    simp [is_chord_symbol, hc, h]
  · have hc : chord_roots.contains c0 = false := by simp [List.elem_iff, h]
    cases rest with
    | nil => simp [is_chord_symbol, hc, h]
    | cons c1 rest2 =>
        by_cases h1 : c1 ∈ chord_roots
        · have hc1 : chord_roots.contains c1 = true := List.elem_iff.2 h1
          by_cases hb : c0 = 'b' ∨ c0 = '#'
          · have hbb : (c0 = 'b' || c0 = '#') = true := by
              rcases hb with hb | hb <;> simp [hb]
            simp [is_chord_symbol, hc, hbb, h, h1, hb]
          · have hbb : (c0 = 'b' || c0 = '#') = false := by
              rw [not_or] at hb
              simp [hb.1, hb.2]
            simp [is_chord_symbol, hc, hbb, h, h1, hb]
        · have hc1 : chord_roots.contains c1 = false := by simp [List.elem_iff, h1]
          simp [is_chord_symbol, hc, hc1, h, h1]

/-! The claim theorems. -/

/-- Claim C1: in the chord detector, a chord event is appended to the
progression if and only if the message is a note-on with positive velocity
whose pitch insertion leaves the active set with at least 3 pitches; nothing
is appended on note-off or zero-velocity note-on; and once the active set
already holds at least 3 pitches, every further positive-velocity note-on
appends one more (duplicated) chord event. -/
theorem chord_emission_iff (track_idx : ℕ) (s : TrackState) (msg : Msg) :
    ((trackStep track_idx s msg).analysis.chord_progression
      = s.analysis.chord_progression ++
        (match msg.type with
         | MsgType.note_on note velocity =>
             if 0 < velocity ∧ 3 ≤ (insert note s.active_notes).card then
               [{ time := s.current_time + msg.time
                  notes := (insert note s.active_notes).sort (· ≤ ·)
                  track := track_idx }]
             else []
         | _ => [])) ∧
    (∀ note velocity, msg.type = MsgType.note_on note velocity → 0 < velocity →
      3 ≤ s.active_notes.card →
      (trackStep track_idx s msg).analysis.chord_progression.length
        = s.analysis.chord_progression.length + 1) := by
  refine ⟨trackStep_progression track_idx s msg, ?_⟩
  intro note velocity hmsg hv hcard
  have hc : 3 ≤ (insert note s.active_notes).card :=
    le_trans hcard (Finset.card_le_card (Finset.subset_insert note s.active_notes))
  rw [trackStep_progression, hmsg]
  simp [hv, hc]

/-- Witness for C1's hypothesis-bearing conjunct: with three pitches already
active, a fourth note-on appends a (duplicate) chord event. -/
theorem chord_emission_iff_witness :
    (trackStep 0 ⟨0, {60, 64, 67}, ⟨[], [], []⟩⟩ ⟨5, MsgType.note_on 70 90⟩).analysis.chord_progression.length
      = ([] : List ChordEvent).length + 1 :=
  (chord_emission_iff 0 ⟨0, {60, 64, 67}, ⟨[], [], []⟩⟩ ⟨5, MsgType.note_on 70 90⟩).2
    70 90 rfl (by decide) (by decide)

/-- Claim C2: after processing a whole track, a pitch is in the active set
exactly when the last event touching it was a note-on with positive velocity
(note-off and zero-velocity note-on remove, removal of an absent pitch is a
no-op). -/
theorem active_set_trailing_note_on (track_idx : ℕ) (a : Analysis) (msgs : List Msg) (p : ℕ) :
    p ∈ (runTrack track_idx a msgs).active_notes ↔
      (msgs.filterMap (touches p)).getLast? = some true := by
  rw [runTrack, mem_active_after_foldl]
  cases h : (msgs.filterMap (touches p)).getLast? with
  | none => simp
  | some b => cases b <;> simp

/-- Claim C3: `categorize_chord_set` is a pure function of the estimated
tempo and the chord count, with the bucket boundaries of the source, and it
maps the three sample inputs to the stated labels. -/
theorem categorize_chord_set_spec :
    (∀ a : FullAnalysis, categorize_chord_set a =
      (if a.estimated_tempo < 80 then "slow-progressions"
       else if a.estimated_tempo > 140 then "fast-progressions"
       else "medium-progressions") ++ "/" ++
      (if a.chord_count > 8 then "complex"
       else if a.chord_count > 4 then "standard"
       else "simple")) ∧
    categorize_chord_set (mkAnalysis 79 9) = "slow-progressions/complex" ∧
    categorize_chord_set (mkAnalysis 80 4) = "medium-progressions/simple" ∧
    categorize_chord_set (mkAnalysis 141 5) = "fast-progressions/standard" := by
  refine ⟨fun a => rfl, ?_, ?_, ?_⟩ <;> decide

/-- Claim C4: `estimate_tempo` returns the first collected tempo change's
bpm, or 120 when none were collected; `estimate_key` returns the first
collected key signature's key, or "C" when none were collected. -/
theorem estimate_tempo_key_first_or_default (a : Analysis) :
    (∀ tc rest, a.tempo_changes = tc :: rest → estimate_tempo a = tc.bpm) ∧
    (a.tempo_changes = [] → estimate_tempo a = 120) ∧
    (∀ ks rest, a.key_signatures = ks :: rest → estimate_key a = ks.key) ∧
    (a.key_signatures = [] → estimate_key a = "C") := by
  refine ⟨?_, ?_, ?_, ?_⟩
  · intro tc rest h; rw [estimate_tempo, h]
  · intro h; rw [estimate_tempo, h]
  · intro ks rest h; rw [estimate_key, h]
  · intro h; rw [estimate_key, h]

/-- Witness for C4: a record with one tempo change and no key signature
estimates that bpm and key "C". -/
theorem estimate_tempo_key_first_or_default_witness :
    estimate_tempo ⟨[], [], [⟨0, 100⟩]⟩ = 100 ∧ estimate_key ⟨[], [], [⟨0, 100⟩]⟩ = "C" :=
  ⟨(estimate_tempo_key_first_or_default ⟨[], [], [⟨0, 100⟩]⟩).1 ⟨0, 100⟩ [] rfl,
    (estimate_tempo_key_first_or_default ⟨[], [], [⟨0, 100⟩]⟩).2.2.2 rfl⟩

/-- Claim C5: every chord event in the progression produced by
`analyze_chord_midi` has strictly ascending, duplicate-free notes, at least
three of them. -/
theorem chord_progression_wellformed (tracks : List (List Msg)) (e : ChordEvent)
    (he : e ∈ (analyze_chord_midi tracks).chord_progression) :
    List.Sorted (· < ·) e.notes ∧ e.notes.Nodup ∧ 3 ≤ e.notes.length := by
  have h : (analyze_chord_midi tracks).chord_progression
      = (analyzeTracksFrom 0 ⟨[], [], []⟩ tracks).chord_progression := rfl
  rw [h] at he
  exact analyzeTracksFrom_goodChord tracks 0 ⟨[], [], []⟩ (by simp) e he

/-- The sample track's chord progression is exactly the one sample chord. -/
theorem sampleTracks_progression :
    (analyze_chord_midi sampleTracks).chord_progression = [sampleChord] := rfl

/-- Witness for C5: a track with three simultaneous note-ons emits one chord
event, and that event is sorted, duplicate-free and of length at least 3. -/
theorem chord_progression_wellformed_witness :
    sampleChord ∈ (analyze_chord_midi sampleTracks).chord_progression ∧
      (List.Sorted (· < ·) sampleChord.notes ∧ sampleChord.notes.Nodup ∧
        3 ≤ sampleChord.notes.length) :=
  ⟨sampleTracks_progression ▸ List.mem_singleton.2 rfl,
    chord_progression_wellformed sampleTracks sampleChord
      (sampleTracks_progression ▸ List.mem_singleton.2 rfl)⟩

/-- Claim C6: querying a catalog built by `process_chord_sets` with no
category filter and no tempo range returns exactly its chord_sets list. -/
theorem catalog_roundtrip_no_filter (files : List MidiFileInput) :
    get_chord_sets_by_category (some (process_chord_sets files)) none none
      = (process_chord_sets files).chord_sets := rfl

/-- Claim C7: the tempo-range filter keeps exactly the records whose
estimated tempo lies in the inclusive interval [min_tempo, max_tempo]. -/
theorem tempo_filter_inclusive (catalog : Catalog) (min_tempo max_tempo : ℚ)
    (cs : ChordSetInfo) :
    cs ∈ get_chord_sets_by_category (some catalog) none (some (min_tempo, max_tempo)) ↔
      cs ∈ catalog.chord_sets ∧ min_tempo ≤ cs.analysis.estimated_tempo ∧
        cs.analysis.estimated_tempo ≤ max_tempo := by
  simp [get_chord_sets_by_category, List.mem_filter, and_assoc]

/-- Claim C8: `_is_chord_symbol` accepts exactly the non-empty tokens whose
first character is a natural note letter, or which have at least two
characters with a flat/sharp first character and a natural note letter
second; in particular "C", "Am", "bB", "#F" are accepted and "x", "",
"Hello" are rejected. -/
theorem is_chord_symbol_spec :
    (∀ text : List Char, is_chord_symbol text = true ↔
      ∃ c0 rest, text = c0 :: rest ∧
        (c0 ∈ chord_roots ∨
          ∃ c1 rest2, rest = c1 :: rest2 ∧ (c0 = 'b' ∨ c0 = '#') ∧ c1 ∈ chord_roots)) ∧
    is_chord_symbol "C".data = true ∧
    is_chord_symbol "Am".data = true ∧
    is_chord_symbol "bB".data = true ∧
    is_chord_symbol "#F".data = true ∧
    is_chord_symbol "x".data = false ∧
    is_chord_symbol "".data = false ∧
    is_chord_symbol "Hello".data = false := by
  refine ⟨?_, by decide, by decide, by decide, by decide, by decide, by decide, by decide⟩
  intro text
  cases text with
  | nil => simp [is_chord_symbol]
  | cons c0 rest =>
      rw [is_chord_symbol_cons]
      constructor
      · intro hcase; exact ⟨c0, rest, rfl, hcase⟩
      · rintro ⟨c0', rest', heq, hcase⟩
        injection heq with h1 h2
        subst h1; subst h2
        exact hcase

/-- Claim C9: `process_chord_zip` turns every outcome of its body into a
structured result: a failure object carrying the error message when the body
raises, and a success object carrying the chord set name, output path,
progression count and metadata otherwise; no exception propagates. -/
theorem process_chord_zip_structured (zip_path : String) (run : Except String ChordData) :
    (∃ e, run = Except.error e ∧
      process_chord_zip zip_path run = ProcessResult.failure e) ∨
    (∃ d, run = Except.ok d ∧
      process_chord_zip zip_path run =
        ProcessResult.success (stem zip_path)
          (ingest_dir ++ "/" ++ stem zip_path ++ "_processed.json")
          d.progressions.length d.metadata) := by
  cases run with
  | error e => exact Or.inl ⟨e, rfl, rfl⟩
  | ok d => exact Or.inr ⟨d, rfl, rfl⟩

/-- Claim C10: a text file that reads without error but yields no accepted
chord token still produces a record (with an empty chord_progressions list),
which is appended to the progressions list, counted, and tallied as "Text". -/
theorem empty_text_record_kept (files : List FileEntry) (name : String) (content : List Char)
    (h : ∀ line ∈ splitLines content, ∀ w ∈ splitWords line, is_chord_symbol w = false) :
    process_text_chords name (some content)
        = some ⟨name, [], content.take 500⟩ ∧
      (analyze_chord_files (files ++ [FileEntry.textFile name (some content)])).progressions
        = (analyze_chord_files files).progressions ++
            [ProgRecord.text ⟨name, [], content.take 500⟩] ∧
      (analyze_chord_files (files ++ [FileEntry.textFile name (some content)])).metadata.formats
        = (analyze_chord_files files).metadata.formats ++ ["Text"] ∧
      (analyze_chord_files (files ++ [FileEntry.textFile name (some content)])).progressions.length
        = (analyze_chord_files files).progressions.length + 1 := by
  have hcp : chordPatterns content = [] := by
    rw [chordPatterns]
    apply List.filterMap_eq_nil_iff.mpr
    intro line hline
    have hfilter : (splitWords line).filter is_chord_symbol = [] := by
      apply List.filter_eq_nil_iff.mpr
      intro w hw
      simp [h line hline w hw]
    simp [hfilter]
  have hrec : process_text_chords name (some content)
      = some ⟨name, [], content.take 500⟩ := by
    simp [process_text_chords, hcp]
  have hstep : analyze_chord_files (files ++ [FileEntry.textFile name (some content)])
      = analyzeFileStep (analyze_chord_files files) (FileEntry.textFile name (some content)) := by
    rw [analyze_chord_files, analyze_chord_files, List.foldl_append, List.foldl_cons,
      List.foldl_nil]
  refine ⟨hrec, ?_, ?_, ?_⟩ <;>
    simp [hstep, analyzeFileStep, hrec]

/-- Witness for C10: the text "x y" has tokens but none is a chord symbol;
the record is still produced, appended, counted and tallied. -/
theorem empty_text_record_kept_witness :
    process_text_chords "chords.txt" (some ("x y".data))
        = some ⟨"chords.txt", [], ("x y".data).take 500⟩ ∧
      (analyze_chord_files ([] ++ [FileEntry.textFile "chords.txt" (some ("x y".data))])).progressions
        = (analyze_chord_files []).progressions ++
            [ProgRecord.text ⟨"chords.txt", [], ("x y".data).take 500⟩] ∧
      (analyze_chord_files ([] ++ [FileEntry.textFile "chords.txt" (some ("x y".data))])).metadata.formats
        = (analyze_chord_files []).metadata.formats ++ ["Text"] ∧
      (analyze_chord_files ([] ++ [FileEntry.textFile "chords.txt" (some ("x y".data))])).progressions.length
        = (analyze_chord_files []).progressions.length + 1 :=
  empty_text_record_kept [] "chords.txt" ("x y".data) (by decide)

end MidiProcessors
